import Mathlib

/-!
Verification development for the SNOMED CT semantic-similarity repository.

The graph builder (`GraphBuilder.py`), the measure dispatch (`Main.py`) and
the batch distance-matrix builders (`scripts/calculate_all_alphas.py`,
`scripts/build_distance_matrix.py`) are embedded as executable Lean
functions.  A snapshot row is modelled as the list of its tab-separated
fields, i.e. the value of `line.split("\t")` in the Python source; a field
access `parts[i]` that is out of range is Python's `IndexError`, modelled by
`Except.error`.  The external module `Worker.py` (absent from the sources)
is kept abstract: its `length_of_shortest_path`, applied to the fixed
SNOMED root, is a parameter `resolver`, with `none` standing for a raised
exception.
-/

namespace SnomedSim

/-- A snapshot row: the tab-split fields of one input line
(`parts = line.split("\t")` in `GraphBuilder.py`). -/
abbrev Row := List String

/-- The networkx `DiGraph` as used by `GraphBuilder.py`: node ids in
insertion order, edges as (source, destination, label) in insertion
order. -/
structure Graph where
  nodes : List String
  edges : List (String × String × String)
deriving DecidableEq

/-- The empty `nx.DiGraph()`. -/
def Graph.empty : Graph := ⟨[], []⟩

/-- networkx node membership test. -/
def Graph.hasNodeB (g : Graph) (n : String) : Bool :=
  g.nodes.contains n

/-- networkx `has_edge(u, v)`: label-blind edge membership. -/
def Graph.hasEdgeB (g : Graph) (u v : String) : Bool :=
  g.edges.any (fun e => e.1 == u && e.2.1 == v)

/-- networkx `add_node`: a no-op when the node is already present. -/
def Graph.addNode (g : Graph) (n : String) : Graph :=
  if g.hasNodeB n then g else ⟨g.nodes ++ [n], g.edges⟩

/-- networkx `add_edge(u, v, label=lbl)`: missing endpoints are inserted as
nodes; an existing edge gets its label overwritten, otherwise the edge is
appended. -/
def Graph.addEdge (g : Graph) (u v lbl : String) : Graph :=
  if ((g.addNode u).addNode v).hasEdgeB u v then
    ⟨((g.addNode u).addNode v).nodes,
     ((g.addNode u).addNode v).edges.map
       (fun e => if e.1 == u && e.2.1 == v then (u, v, lbl) else e)⟩
  else
    ⟨((g.addNode u).addNode v).nodes, ((g.addNode u).addNode v).edges ++ [(u, v, lbl)]⟩

/-- The ordered (source, destination) pairs of the edge list. -/
def Graph.edgePairs (g : Graph) : List (String × String) :=
  g.edges.map (fun e => (e.1, e.2.1))

/-- One iteration of the loop in `builtEdge` (`GraphBuilder.py` lines 5-21):
fields 2, 4, 5 and 7 are read unconditionally, so a row with fewer than 8
fields raises `IndexError` (modelled as `Except.error ()`); an active row
(for the is-a variant: active and of subsumption type `116680003`) adds the
edge source → destination unless the ordered pair is already present. -/
def builtEdgeLine (g : Graph) (parts : Row) (without_attribute_relation : Bool) :
    Except Unit Graph :=
  match parts.get? 2, parts.get? 4, parts.get? 5, parts.get? 7 with
  | some active, some focus_concept, some attribute_value, some relation_type =>
    let b := if without_attribute_relation then
        active == "1" && relation_type == "116680003"
      else
        active == "1"
    if b then
      if g.hasEdgeB focus_concept attribute_value then Except.ok g
      else Except.ok (g.addEdge focus_concept attribute_value relation_type)
    else Except.ok g
  | _, _, _, _ => Except.error ()

/-- `builtEdge` of `GraphBuilder.py`: folds `builtEdgeLine` over the
relationship rows, propagating a raised `IndexError`. -/
def builtEdge (g : Graph) (lines : List Row) (without_attribute_relation : Bool) :
    Except Unit Graph :=
  match lines with
  | [] => Except.ok g
  | l :: ls =>
    match builtEdgeLine g l without_attribute_relation with
    | Except.ok g1 => builtEdge g1 ls without_attribute_relation
    | Except.error e => Except.error e

/-- One iteration of the loop in `builtNode` (`GraphBuilder.py` lines 24-31):
fields 0 and 2 are read, so a row with fewer than 3 fields raises
`IndexError`; a row with active flag `"1"` adds its id as a node. -/
def builtNodeLine (g : Graph) (parts : Row) : Except Unit Graph :=
  match parts.get? 0, parts.get? 2 with
  | some node, some active =>
    if active == "1" then Except.ok (g.addNode node) else Except.ok g
  | _, _ => Except.error ()

/-- `builtNode` of `GraphBuilder.py`: folds `builtNodeLine` over the concept
rows, propagating a raised `IndexError`. -/
def builtNode (g : Graph) (lines : List Row) : Except Unit Graph :=
  match lines with
  | [] => Except.ok g
  | l :: ls =>
    match builtNodeLine g l with
    | Except.ok g1 => builtNode g1 ls
    | Except.error e => Except.error e

/-- `createGraph` of `GraphBuilder.py`, with the file reads and the pickle
dump stripped: it is applied to the concept rows (`Lines0`) and the
relationship rows (`Lines1`) and returns the built graph. -/
def createGraph (lines0 lines1 : List Row) (without_attribute_relation : Bool) :
    Except Unit Graph :=
  match builtNode Graph.empty lines0 with
  | Except.ok g => builtEdge g lines1 without_attribute_relation
  | Except.error e => Except.error e

/-- The `ontology` dictionary of `Main.py`: the full-relation graph and the
is-a graph. -/
structure Ontology where
  rel : Graph
  sim : Graph

/-- The value returned by `calculateSimilarity` in `Main.py`: either the
output of one of the measure functions in `Measure.py`, or the literal
string assigned in the final `else` branch. -/
inductive SimOutput (α : Type) where
  | value : α → SimOutput α
  | message : String → SimOutput α
deriving DecidableEq

/-- The seven measure functions of `Measure.py` (absent from the sources),
kept abstract: `calculateSimilarity` only routes to them. -/
structure MeasureLib (α : Type) where
  calculate_relatedness_WuPalmer : Ontology → String → String → α
  calculate_relatedness_ChoiKim : Ontology → String → String → α
  calculate_relatedness_LeacockChodorow : Ontology → String → String → α
  calculate_relatedness_BatetSanchezValls : Ontology → String → String → α
  calculate_relatedness_Resnik : Ontology → String → String → α
  calculate_relatedness_Lin : Ontology → String → String → α
  calculate_relatedness_JiangConrathDissimilarity : Ontology → String → String → α

/-- `calculateSimilarity` of `Main.py` (identical in
`graphbuilder/Main.py`): string dispatch over the measure name, with the
fallback `output = "Wrong measure name!"`. -/
def calculateSimilarity {α : Type} (M : MeasureLib α) (ontology : Ontology)
    (measure_name concept1 concept2 : String) : SimOutput α :=
  if measure_name = "WuPalmer" then
    SimOutput.value (M.calculate_relatedness_WuPalmer ontology concept1 concept2)
  else if measure_name = "ChoiKim" then
    SimOutput.value (M.calculate_relatedness_ChoiKim ontology concept1 concept2)
  else if measure_name = "LeacockChodorow" then
    SimOutput.value (M.calculate_relatedness_LeacockChodorow ontology concept1 concept2)
  else if measure_name = "BatetSanchezValls" then
    SimOutput.value (M.calculate_relatedness_BatetSanchezValls ontology concept1 concept2)
  else if measure_name = "Resnik" then
    SimOutput.value (M.calculate_relatedness_Resnik ontology concept1 concept2)
  else if measure_name = "Lin" then
    SimOutput.value (M.calculate_relatedness_Lin ontology concept1 concept2)
  else if measure_name = "JiangConrathDissimilarity" then
    SimOutput.value (M.calculate_relatedness_JiangConrathDissimilarity ontology concept1 concept2)
  else
    SimOutput.message "Wrong measure name!"

/-- A resolver: `Worker.length_of_shortest_path` (module absent from the
sources) applied to the fixed SNOMED root, as called by the scripts;
`none` models the call raising an exception. -/
abbrev Resolver := Graph → String → String → Option Nat

/-- `shortest_path_distance` of `scripts/calculate_all_alphas.py` lines
49-73: equal concepts short-circuit to 0 before any graph access; otherwise
both directed resolver calls are made inside `try`, the minimum is taken,
and any failure yields `None`. -/
def shortest_path_distance (resolver : Resolver) (graph : Graph)
    (concept1 concept2 : String) : Option Nat :=
  if concept1 = concept2 then some 0
  else
    match resolver graph concept1 concept2, resolver graph concept2 concept1 with
    | some dab, some dba => some (min dab dba)
    | some _, none => none
    | none, _ => none

/-- A pandas-style matrix keyed by row and column label, with a single-cell
`loc` assignment. -/
def matrixUpdate {α : Type} (m : String → String → α) (r c : String) (v : α) :
    String → String → α :=
  fun r' c' => if r' = r ∧ c' = c then v else m r' c'

/-- The body of the double loop of
`calculate_pairwise_distances_from_graph` (`calculate_all_alphas.py` lines
97-118) for enumerated entries `(i, c1)` and `(j, c2)`: pairs with `i ≤ j`
are processed, the diagonal is set to 0, a computed distance is written to
both symmetric cells, and a failed computation writes the sentinel 50 to
both cells. -/
def pairStep (resolver : Resolver) (graph : Graph) (m : String → String → Nat)
    (ic1 jc2 : Nat × String) : String → String → Nat :=
  if ic1.1 ≤ jc2.1 then
    if ic1.1 = jc2.1 then
      matrixUpdate m ic1.2 jc2.2 0
    else
      match shortest_path_distance resolver graph ic1.2 jc2.2 with
      | some dist => matrixUpdate (matrixUpdate m ic1.2 jc2.2 dist) jc2.2 ic1.2 dist
      | none => matrixUpdate (matrixUpdate m ic1.2 jc2.2 50) jc2.2 ic1.2 50
  else m

/-- `calculate_pairwise_distances_from_graph` of `calculate_all_alphas.py`:
the distance matrix starts as `np.zeros` and the double `enumerate` loop
fills it via `pairStep`. -/
def calculate_pairwise_distances_from_graph (resolver : Resolver)
    (concepts : List String) (graph : Graph) : String → String → Nat :=
  concepts.enum.foldl
    (fun m ic1 => concepts.enum.foldl (fun m jc2 => pairStep resolver graph m ic1 jc2) m)
    (fun _ _ => 0)

/-- A cell value of the float matrix of `scripts/build_distance_matrix.py`:
unwritten cells are NaN (the `dtype=float` DataFrame default), a computed
distance is a number, and the `except` branch writes `float('inf')`. -/
inductive DVal where
  | nan : DVal
  | num : Nat → DVal
  | inf : DVal
deriving DecidableEq

/-- The body of the double loop of `build_distance_matrix`
(`build_distance_matrix.py` lines 113-127): every ordered pair is tried;
a raised exception is caught and the cell set to `float('inf')`. -/
def buildStep (resolver : Resolver) (graph : Graph) (m : String → String → DVal)
    (c1 c2 : String) : String → String → DVal :=
  match resolver graph c1 c2 with
  | some d => matrixUpdate m c1 c2 (DVal.num d)
  | none => matrixUpdate m c1 c2 DVal.inf

/-- `build_distance_matrix` of `scripts/build_distance_matrix.py`: the full
double loop over the concept list, starting from an all-NaN matrix. -/
def build_distance_matrix (resolver : Resolver) (concept_list : List String)
    (graph : Graph) : String → String → DVal :=
  concept_list.foldl
    (fun m c1 => concept_list.foldl (fun m c2 => buildStep resolver graph m c1 c2) m)
    (fun _ _ => DVal.nan)

/-- A directed walk in the graph: consecutive elements of the list are
edges. -/
def Graph.pathB (g : Graph) : List String → Bool
  | [] => true
  | [_] => true
  | a :: b :: rest => g.hasEdgeB a b && Graph.pathB g (b :: rest)

/-- Acyclicity of the built graph: no directed walk of at least one edge
returns to its starting node. -/
def Graph.Acyclic (g : Graph) : Prop :=
  ∀ l : List String, 2 ≤ l.length → l.head? = l.getLast? →
    g.pathB l = true → False

/-- The admission test of `builtEdge` on a row, as a predicate on the row
alone: the active flag (field 2) is `"1"` and, for the is-a variant, the
relation type (field 7) is the subsumption constant. -/
def admitsB (parts : Row) (without_attribute_relation : Bool) : Bool :=
  match parts.get? 2, parts.get? 7 with
  | some active, some relation_type =>
    if without_attribute_relation then
      active == "1" && relation_type == "116680003"
    else
      active == "1"
  | _, _ => false

/-- The row is admitted and contributes the directed edge `u → v`, i.e.
its source field (4) is `u` and its destination field (5) is `v`. -/
def admitsEdgeB (parts : Row) (without_attribute_relation : Bool) (u v : String) : Bool :=
  (parts.get? 4 == some u) && (parts.get? 5 == some v) &&
    admitsB parts without_attribute_relation

/-- The row is admitted and mentions `n` as its source or destination. -/
def admitsTouchB (parts : Row) (without_attribute_relation : Bool) (n : String) : Bool :=
  admitsB parts without_attribute_relation &&
    ((parts.get? 4 == some n) || (parts.get? 5 == some n))

/-- A concept row admitting `n` as a node: id field (0) is `n` and active
flag (2) is `"1"`. -/
def admitsConceptB (parts : Row) (n : String) : Bool :=
  (parts.get? 0 == some n) && (parts.get? 2 == some "1")

/-- A directed walk along the edges contributed by admitted is-a
relationship rows. -/
def rowPathB (lines : List Row) : List String → Bool
  | [] => true
  | [_] => true
  | a :: b :: rest =>
    lines.any (fun parts => admitsEdgeB parts true a b) && rowPathB lines (b :: rest)

/-- Acyclicity of the relation given by the admitted subsumption rows. -/
def RowsAcyclic (lines : List Row) : Prop :=
  ∀ l : List String, 2 ≤ l.length → l.head? = l.getLast? →
    rowPathB lines l = true → False

end SnomedSim

namespace SnomedSim

/-- C6 helper: `shortest_path_distance` is symmetric in its two concepts. -/
theorem shortest_path_distance_comm (resolver : Resolver) (graph : Graph)
    (c1 c2 : String) :
    shortest_path_distance resolver graph c1 c2 =
      shortest_path_distance resolver graph c2 c1 := by
  unfold shortest_path_distance
  by_cases h : c1 = c2
  · subst h
    simp
  · rw [if_neg h, if_neg (fun h2 => h h2.symm)]
    rcases hab : resolver graph c1 c2 with _ | dab <;>
      rcases hba : resolver graph c2 c1 with _ | dba <;>
      simp [hab, hba, Nat.min_comm]

/-- Helper: the distance of a concept to itself is 0, whatever the graph
and the resolver. -/
theorem shortest_path_distance_refl (resolver : Resolver) (graph : Graph)
    (c : String) : shortest_path_distance resolver graph c c = some 0 := by
  simp [shortest_path_distance]

/-- Helper: a predicate preserved by every step of a fold holds of the
result. -/
theorem foldl_invariant {α β : Type _} (f : α → β → α) (P : α → Prop) :
    ∀ (l : List β) (a : α), (∀ x b, b ∈ l → P x → P (f x b)) → P a →
      P (l.foldl f a) := by
  intro l
  induction l with
  | nil => exact fun a _ h0 => h0
  | cons b bs ih =>
    intro a h h0
    exact ih (f a b) (fun x c hc hx => h x c (List.mem_cons_of_mem _ hc) hx)
      (h a b (List.mem_cons_self _ _) h0)

/-- Helper: one matrix-filling step of the pairwise loop keeps the whole
diagonal at 0. -/
theorem pairStep_diag (resolver : Resolver) (graph : Graph)
    (m : String → String → Nat) (ic1 jc2 : Nat × String)
    (hm : ∀ c, m c c = 0) (c : String) :
    pairStep resolver graph m ic1 jc2 c c = 0 := by
  unfold pairStep
  split
  · split
    · unfold matrixUpdate
      split
      · rfl
      · exact hm c
    · rcases hspd : shortest_path_distance resolver graph ic1.2 jc2.2 with _ | dist
      · dsimp only
        unfold matrixUpdate
        split
        · next h =>
          rw [← h.1, ← h.2] at hspd
          rw [shortest_path_distance_refl] at hspd
          exact absurd hspd (by simp)
        · split
          · next _ h =>
            rw [← h.1, ← h.2] at hspd
            rw [shortest_path_distance_refl] at hspd
            exact absurd hspd (by simp)
          · exact hm c
      · dsimp only
        unfold matrixUpdate
        split
        · next h =>
          rw [← h.1, ← h.2] at hspd
          rw [shortest_path_distance_refl] at hspd
          exact (Option.some_inj.mp hspd).symm
        · split
          · next _ h =>
            rw [← h.1, ← h.2] at hspd
            rw [shortest_path_distance_refl] at hspd
            exact (Option.some_inj.mp hspd).symm
          · exact hm c
  · exact hm c

/-- Helper: the diagonal of the pairwise distance matrix is 0 for every
label. -/
theorem calculate_pairwise_diag (resolver : Resolver) (concepts : List String)
    (graph : Graph) (c : String) :
    calculate_pairwise_distances_from_graph resolver concepts graph c c = 0 := by
  unfold calculate_pairwise_distances_from_graph
  refine foldl_invariant _ (fun (m : String → String → Nat) => ∀ c, m c c = 0)
    _ _ ?_ (fun _ => rfl) c
  intro m ic1 _ hm
  refine foldl_invariant _ (fun (m : String → String → Nat) => ∀ c, m c c = 0) _ _ ?_ hm
  intro m' jc2 _ hm' c'
  exact pairStep_diag resolver graph m' ic1 jc2 hm' c'

/-- C6: the symmetrized distance of `shortest_path_distance`, which takes
the minimum of the two directed LCA-based distances, is symmetric in its
two concepts for every graph and every (abstract) directed resolver. -/
theorem C6_shortest_path_distance_symmetric (resolver : Resolver)
    (graph : Graph) (c1 c2 : String) :
    shortest_path_distance resolver graph c1 c2 =
      shortest_path_distance resolver graph c2 c1 :=
  shortest_path_distance_comm resolver graph c1 c2

/-- C10: for every graph and every concept id `c`, including ids that are
not nodes of the graph, `shortest_path_distance graph c c` is 0 without
consulting the graph or the resolver at all, so the equal-arguments case
never produces an unknown-concept error or an exception. -/
theorem C10_self_distance_no_graph_access (resolver : Resolver)
    (graph : Graph) (c : String) :
    shortest_path_distance resolver graph c c = some 0 :=
  shortest_path_distance_refl resolver graph c

/-- C7: for every concept `c` present in the graph, the distance from `c`
to itself is 0, and the diagonal of the distance matrix built by
`calculate_pairwise_distances_from_graph` is 0. -/
theorem C7_self_distance_zero (resolver : Resolver) (graph : Graph)
    (concepts : List String) (c : String) ( _h : graph.hasNodeB c = true) :
    shortest_path_distance resolver graph c c = some 0 ∧
      calculate_pairwise_distances_from_graph resolver concepts graph c c = 0 :=
  ⟨shortest_path_distance_refl resolver graph c,
   calculate_pairwise_diag resolver concepts graph c⟩

/-- A graph holding only the SNOMED root node, used to instantiate
hypotheses about node membership. -/
def rootOnlyGraph : Graph := ⟨["138875005"], []⟩

/-- A resolver that fails (raises) on every query. -/
def failingResolver : Resolver := fun _ _ _ => none

/-- Witness for C7 at the root-only graph and the always-failing
resolver. -/
theorem C7_self_distance_zero_witness :
    shortest_path_distance failingResolver rootOnlyGraph "138875005" "138875005" = some 0 ∧
      calculate_pairwise_distances_from_graph failingResolver ["138875005"]
        rootOnlyGraph "138875005" "138875005" = 0 :=
  C7_self_distance_zero failingResolver rootOnlyGraph ["138875005"] "138875005" (by decide)

/-- The constant measure library: every measure returns 0. -/
def constMeasures : MeasureLib Nat :=
  ⟨fun _ _ _ => 0, fun _ _ _ => 0, fun _ _ _ => 0, fun _ _ _ => 0,
   fun _ _ _ => 0, fun _ _ _ => 0, fun _ _ _ => 0⟩

/-- The ontology made of two empty graphs. -/
def emptyOntology : Ontology := ⟨Graph.empty, Graph.empty⟩

/-- C5: for every measure name other than the seven recognized names,
`calculateSimilarity` returns the explicit wrong-measure-name message and
never a measure value. -/
theorem C5_unknown_measure_error {α : Type} (M : MeasureLib α)
    (ontology : Ontology) (measure_name concept1 concept2 : String)
    (h : measure_name ∉ ["WuPalmer", "ChoiKim", "LeacockChodorow",
      "BatetSanchezValls", "Resnik", "Lin", "JiangConrathDissimilarity"]) :
    calculateSimilarity M ontology measure_name concept1 concept2 =
      SimOutput.message "Wrong measure name!" := by
  simp only [List.mem_cons, List.mem_singleton, not_or] at h
  obtain ⟨h1, h2, h3, h4, h5, h6, h7⟩ := h
  simp [calculateSimilarity, h1, h2, h3, h4, h5, h6, h7]

/-- Witness for C5 at the unrecognized name `"cosine"`. -/
theorem C5_unknown_measure_error_witness :
    calculateSimilarity constMeasures emptyOntology "cosine" "100" "200" =
      SimOutput.message "Wrong measure name!" :=
  C5_unknown_measure_error constMeasures emptyOntology "cosine" "100" "200" (by decide)

/-- Helper: node membership as list membership. -/
theorem hasNodeB_iff (g : Graph) (n : String) :
    g.hasNodeB n = true ↔ n ∈ g.nodes :=
  List.elem_iff

/-- Helper: edge membership as membership of the ordered pair list. -/
theorem hasEdgeB_iff (g : Graph) (u v : String) :
    g.hasEdgeB u v = true ↔ (u, v) ∈ g.edgePairs := by
  unfold Graph.hasEdgeB Graph.edgePairs
  rw [List.any_eq_true]
  constructor
  · rintro ⟨e, he, hp⟩
    rw [Bool.and_eq_true, beq_iff_eq, beq_iff_eq] at hp
    exact List.mem_map.mpr ⟨e, he, by rw [hp.1, hp.2]⟩
  · intro hm
    rcases List.mem_map.mp hm with ⟨e, he, hp⟩
    refine ⟨e, he, ?_⟩
    rw [Bool.and_eq_true, beq_iff_eq, beq_iff_eq]
    exact ⟨congrArg Prod.fst hp, congrArg Prod.snd hp⟩

/-- Helper: `add_node` leaves the edge list unchanged. -/
theorem addNode_edges (g : Graph) (m : String) : (g.addNode m).edges = g.edges := by
  unfold Graph.addNode
  split <;> rfl

/-- Helper: node membership after `add_node`. -/
theorem addNode_hasNodeB (g : Graph) (m n : String) :
    (g.addNode m).hasNodeB n = true ↔ g.hasNodeB n = true ∨ n = m := by
  unfold Graph.addNode
  split
  · next h =>
    constructor
    · exact Or.inl
    · rintro (h1 | rfl)
      · exact h1
      · exact h
  · rw [hasNodeB_iff, hasNodeB_iff]
    show n ∈ g.nodes ++ [m] ↔ _
    rw [List.mem_append, List.mem_singleton]

/-- Helper: edge membership is unaffected by `add_node`. -/
theorem addNode_hasEdgeB (g : Graph) (m u v : String) :
    (g.addNode m).hasEdgeB u v = g.hasEdgeB u v := by
  unfold Graph.hasEdgeB
  rw [addNode_edges]

/-- Helper: the ordered pairs after `add_edge`. -/
theorem addEdge_edgePairs (g : Graph) (u v lbl : String) :
    (g.addEdge u v lbl).edgePairs =
      if g.hasEdgeB u v then g.edgePairs else g.edgePairs ++ [(u, v)] := by
  unfold Graph.addEdge
  rw [show ((g.addNode u).addNode v).hasEdgeB u v = g.hasEdgeB u v by
    rw [addNode_hasEdgeB, addNode_hasEdgeB]]
  split
  · next h =>
    show List.map _ (List.map _ _) = _
    rw [List.map_map]
    unfold Graph.edgePairs
    rw [show ((g.addNode u).addNode v).edges = g.edges by rw [addNode_edges, addNode_edges]]
    refine List.map_congr_left ?_
    intro e _
    show (fun e => (e.1, e.2.1)) (if e.1 == u && e.2.1 == v then (u, v, lbl) else e) = _
    split
    · next hc =>
      rw [Bool.and_eq_true, beq_iff_eq, beq_iff_eq] at hc
      show (u, v) = (e.1, e.2.1)
      rw [hc.1, hc.2]
    · rfl
  · show List.map _ (_ ++ _) = _
    rw [List.map_append]
    unfold Graph.edgePairs
    rw [show ((g.addNode u).addNode v).edges = g.edges by rw [addNode_edges, addNode_edges]]
    rfl

/-- Helper: edge membership after `add_edge`. -/
theorem addEdge_hasEdgeB (g : Graph) (u v lbl x y : String) :
    (g.addEdge u v lbl).hasEdgeB x y = true ↔
      g.hasEdgeB x y = true ∨ (x = u ∧ y = v) := by
  rw [hasEdgeB_iff, addEdge_edgePairs]
  split
  · next h =>
    rw [← hasEdgeB_iff]
    constructor
    · exact Or.inl
    · rintro (h1 | ⟨rfl, rfl⟩)
      · exact h1
      · exact h
  · rw [List.mem_append, List.mem_singleton, ← hasEdgeB_iff, Prod.mk.injEq]

/-- Helper: node membership after `add_edge`: both endpoints are
inserted. -/
theorem addEdge_hasNodeB (g : Graph) (u v lbl n : String) :
    (g.addEdge u v lbl).hasNodeB n = true ↔
      g.hasNodeB n = true ∨ n = u ∨ n = v := by
  unfold Graph.addEdge
  have hnodes : ∀ h : Graph, h.nodes = ((g.addNode u).addNode v).nodes →
      (h.hasNodeB n = true ↔ g.hasNodeB n = true ∨ n = u ∨ n = v) := by
    intro h hh
    unfold Graph.hasNodeB
    rw [hh]
    rw [show (((g.addNode u).addNode v).nodes.contains n = true) ↔
        ((g.addNode u).addNode v).hasNodeB n = true from Iff.rfl]
    rw [addNode_hasNodeB, addNode_hasNodeB]
    tauto
  split
  · exact hnodes _ rfl
  · exact hnodes _ rfl

/-- Helper: a concept row with fewer than 3 fields raises `IndexError` in
`builtNode`. -/
theorem builtNodeLine_error (g : Graph) (parts : Row) (h : parts.length < 3) :
    builtNodeLine g parts = Except.error () := by
  unfold builtNodeLine
  rw [List.get?_len_le (show parts.length ≤ 2 by omega)]
  cases parts.get? 0 <;> rfl

/-- Helper: a relationship row with fewer than 8 fields raises
`IndexError` in `builtEdge`. -/
theorem builtEdgeLine_error (g : Graph) (parts : Row) (w : Bool)
    (h : parts.length < 8) : builtEdgeLine g parts w = Except.error () := by
  unfold builtEdgeLine
  rw [List.get?_len_le (show parts.length ≤ 7 by omega)]
  cases parts.get? 2 <;> cases parts.get? 4 <;> cases parts.get? 5 <;> rfl

/-- Helper: `builtNode` aborts whenever some concept row is too short. -/
theorem builtNode_error (g : Graph) (lines : List Row)
    (h : ∃ parts ∈ lines, parts.length < 3) :
    builtNode g lines = Except.error () := by
  induction lines generalizing g with
  | nil => simp at h
  | cons l ls ih =>
    rcases h with ⟨p, hp, hlen⟩
    rcases List.mem_cons.mp hp with h1 | h1
    · subst h1
      unfold builtNode
      rw [builtNodeLine_error g p hlen]
    · unfold builtNode
      cases hres : builtNodeLine g l with
      | error e => cases e; rfl
      | ok g1 => exact ih g1 ⟨p, h1, hlen⟩

/-- Helper: `builtEdge` aborts whenever some relationship row is too
short. -/
theorem builtEdge_error (g : Graph) (lines : List Row) (w : Bool)
    (h : ∃ parts ∈ lines, parts.length < 8) :
    builtEdge g lines w = Except.error () := by
  induction lines generalizing g with
  | nil => simp at h
  | cons l ls ih =>
    rcases h with ⟨p, hp, hlen⟩
    rcases List.mem_cons.mp hp with h1 | h1
    · subst h1
      unfold builtEdge
      rw [builtEdgeLine_error g p w hlen]
    · unfold builtEdge
      cases hres : builtEdgeLine g l w with
      | error e => cases e; rfl
      | ok g1 => exact ih g1 ⟨p, h1, hlen⟩

/-- Counterexample to C2: on the single malformed row `["100"]` (one field
only), both `builtNode` and `builtEdge` raise `IndexError` and the build
aborts, instead of skipping the row and continuing. -/
theorem C2_counterexample :
    builtNode Graph.empty [["100"]] = Except.error () ∧
      builtEdge Graph.empty [["100"]] true = Except.error () :=
  ⟨rfl, rfl⟩

/-- C2 (amended): a row whose tab-split field count is too small (fewer
than 3 fields for `builtNode`, fewer than 8 for `builtEdge`) is **not**
skipped: the field access raises `IndexError` and the whole build aborts
with that exception. -/
theorem C2_malformed_row_aborts (g : Graph) (lines : List Row) (w : Bool) :
    ((∃ parts ∈ lines, parts.length < 3) → builtNode g lines = Except.error ()) ∧
      ((∃ parts ∈ lines, parts.length < 8) → builtEdge g lines w = Except.error ()) :=
  ⟨builtNode_error g lines, builtEdge_error g lines w⟩

/-- Witness for C2 (amended) on a two-field row. -/
theorem C2_malformed_row_aborts_witness :
    builtNode Graph.empty [["900000000000207008", "20230430"]] = Except.error () ∧
      builtEdge Graph.empty [["900000000000207008", "20230430"]] false = Except.error () :=
  ⟨(C2_malformed_row_aborts Graph.empty [["900000000000207008", "20230430"]] false).1
      ⟨["900000000000207008", "20230430"], by decide, by decide⟩,
   (C2_malformed_row_aborts Graph.empty [["900000000000207008", "20230430"]] false).2
      ⟨["900000000000207008", "20230430"], by decide, by decide⟩⟩

/-- Helper: outcome analysis of one `builtEdge` iteration that did not
raise: the row has all four fields, and the graph is unchanged (row not
admitted, or ordered pair already present) or extended by `add_edge`. -/
theorem builtEdgeLine_cases (g g' : Graph) (parts : Row) (w : Bool)
    (hok : builtEdgeLine g parts w = Except.ok g') :
    ∃ focus attrv rtype, parts.get? 4 = some focus ∧ parts.get? 5 = some attrv ∧
      parts.get? 7 = some rtype ∧
      ((admitsB parts w = false ∧ g' = g) ∨
        (admitsB parts w = true ∧ g.hasEdgeB focus attrv = true ∧ g' = g) ∨
        (admitsB parts w = true ∧ g.hasEdgeB focus attrv = false ∧
          g' = g.addEdge focus attrv rtype)) := by
  unfold builtEdgeLine at hok
  rcases h2 : parts.get? 2 with _ | active <;>
    rcases h4 : parts.get? 4 with _ | focus <;>
      rcases h5 : parts.get? 5 with _ | attrv <;>
        rcases h7 : parts.get? 7 with _ | rtype <;>
          rw [h2, h4, h5, h7] at hok <;>
            try exact Except.noConfusion hok
  refine ⟨focus, attrv, rtype, rfl, rfl, rfl, ?_⟩
  have hadm : admitsB parts w =
      (if w then active == "1" && rtype == "116680003" else active == "1") := by
    unfold admitsB
    rw [h2, h7]
  dsimp only at hok
  rcases hb : (if w then active == "1" && rtype == "116680003" else active == "1") with _ | _ <;>
    rw [hb] at hok
  · rw [if_neg (by simp)] at hok
    injection hok with hg
    exact Or.inl ⟨hadm.trans hb, hg.symm⟩
  · rw [if_pos rfl] at hok
    rcases hedge : g.hasEdgeB focus attrv with _ | _ <;> rw [hedge] at hok
    · rw [if_neg (by simp)] at hok
      injection hok with hg
      exact Or.inr (Or.inr ⟨hadm.trans hb, rfl, hg.symm⟩)
    · rw [if_pos rfl] at hok
      injection hok with hg
      exact Or.inr (Or.inl ⟨hadm.trans hb, rfl, hg.symm⟩)

/-- Helper: edge membership after one non-raising `builtEdge` iteration. -/
theorem builtEdgeLine_hasEdgeB (g g' : Graph) (parts : Row) (w : Bool)
    (hok : builtEdgeLine g parts w = Except.ok g') (x y : String) :
    g'.hasEdgeB x y = true ↔
      g.hasEdgeB x y = true ∨ admitsEdgeB parts w x y = true := by
  obtain ⟨focus, attrv, rtype, h4, h5, h7, hcase⟩ := builtEdgeLine_cases g g' parts w hok
  have hadmE : admitsEdgeB parts w x y =
      (((focus == x) && (attrv == y)) && admitsB parts w) := by
    unfold admitsEdgeB
    rw [h4, h5]
    rfl
  rcases hcase with ⟨hadm, rfl⟩ | ⟨hadm, hedge, rfl⟩ | ⟨hadm, hedge, rfl⟩
  · rw [hadmE, hadm]
    simp
  · rw [hadmE, hadm]
    simp only [Bool.and_true, Bool.and_eq_true, beq_iff_eq]
    constructor
    · exact Or.inl
    · rintro (h1 | ⟨rfl, rfl⟩)
      · exact h1
      · exact hedge
  · rw [addEdge_hasEdgeB, hadmE, hadm]
    simp only [Bool.and_true, Bool.and_eq_true, beq_iff_eq]
    constructor
    · rintro (h1 | ⟨rfl, rfl⟩)
      · exact Or.inl h1
      · exact Or.inr ⟨rfl, rfl⟩
    · rintro (h1 | ⟨rfl, rfl⟩)
      · exact Or.inl h1
      · exact Or.inr ⟨rfl, rfl⟩

/-- Helper: node membership after one non-raising `builtEdge` iteration,
assuming every existing edge already has its endpoints as nodes. -/
theorem builtEdgeLine_hasNodeB (g g' : Graph) (parts : Row) (w : Bool)
    (hinv : ∀ u v, g.hasEdgeB u v = true → g.hasNodeB u = true ∧ g.hasNodeB v = true)
    (hok : builtEdgeLine g parts w = Except.ok g') (n : String) :
    g'.hasNodeB n = true ↔
      g.hasNodeB n = true ∨ admitsTouchB parts w n = true := by
  obtain ⟨focus, attrv, rtype, h4, h5, h7, hcase⟩ := builtEdgeLine_cases g g' parts w hok
  have hadmT : admitsTouchB parts w n =
      (admitsB parts w && ((focus == n) || (attrv == n))) := by
    unfold admitsTouchB
    rw [h4, h5]
    rfl
  rcases hcase with ⟨hadm, rfl⟩ | ⟨hadm, hedge, rfl⟩ | ⟨hadm, hedge, rfl⟩
  · rw [hadmT, hadm]
    simp
  · rw [hadmT, hadm]
    simp only [Bool.true_and, Bool.or_eq_true, beq_iff_eq]
    constructor
    · exact Or.inl
    · rintro (h1 | (rfl | rfl))
      · exact h1
      · exact (hinv _ _ hedge).1
      · exact (hinv _ _ hedge).2
  · rw [addEdge_hasNodeB, hadmT, hadm]
    simp only [Bool.true_and, Bool.or_eq_true, beq_iff_eq]
    constructor
    · rintro (h1 | rfl | rfl)
      · exact Or.inl h1
      · exact Or.inr (Or.inl rfl)
      · exact Or.inr (Or.inr rfl)
    · rintro (h1 | (rfl | rfl))
      · exact Or.inl h1
      · exact Or.inr (Or.inl rfl)
      · exact Or.inr (Or.inr rfl)

/-- Helper: one non-raising `builtEdge` iteration preserves the invariant
that every edge has both endpoints among the nodes. -/
theorem builtEdgeLine_inv (g g' : Graph) (parts : Row) (w : Bool)
    (hinv : ∀ u v, g.hasEdgeB u v = true → g.hasNodeB u = true ∧ g.hasNodeB v = true)
    (hok : builtEdgeLine g parts w = Except.ok g') :
    ∀ u v, g'.hasEdgeB u v = true → g'.hasNodeB u = true ∧ g'.hasNodeB v = true := by
  obtain ⟨focus, attrv, rtype, h4, h5, h7, hcase⟩ := builtEdgeLine_cases g g' parts w hok
  rcases hcase with ⟨_, rfl⟩ | ⟨_, _, rfl⟩ | ⟨_, hedge, rfl⟩
  · exact hinv
  · exact hinv
  · intro u v he
    rw [addEdge_hasEdgeB] at he
    rcases he with h1 | ⟨rfl, rfl⟩
    · exact ⟨(addEdge_hasNodeB g focus attrv rtype u).mpr (Or.inl (hinv u v h1).1),
        (addEdge_hasNodeB g focus attrv rtype v).mpr (Or.inl (hinv u v h1).2)⟩
    · exact ⟨(addEdge_hasNodeB _ _ _ _ _).mpr (Or.inr (Or.inl rfl)),
        (addEdge_hasNodeB _ _ _ _ _).mpr (Or.inr (Or.inr rfl))⟩

/-- Helper: one non-raising `builtEdge` iteration preserves distinctness of
the ordered edge pairs (the `has_edge` guard collapses duplicates). -/
theorem builtEdgeLine_nodup (g g' : Graph) (parts : Row) (w : Bool)
    (hok : builtEdgeLine g parts w = Except.ok g')
    (hnd : g.edgePairs.Nodup) : g'.edgePairs.Nodup := by
  obtain ⟨focus, attrv, rtype, _, _, _, hcase⟩ := builtEdgeLine_cases g g' parts w hok
  rcases hcase with ⟨_, rfl⟩ | ⟨_, _, rfl⟩ | ⟨_, hedge, rfl⟩
  · exact hnd
  · exact hnd
  · rw [addEdge_edgePairs, if_neg (by simp [hedge])]
    rw [List.nodup_middle, List.nodup_cons]
    constructor
    · intro hm
      have : (focus, attrv) ∈ g.edgePairs := by simpa using hm
      have : g.hasEdgeB focus attrv = true := (hasEdgeB_iff g focus attrv).mpr this
      rw [hedge] at this
      cases this
    · simpa using hnd

/-- Helper: edge membership in the graph built by `builtEdge`:
exactly the initial edges plus one edge per admitted row. -/
theorem builtEdge_hasEdgeB (lines : List Row) (w : Bool) (g' : Graph)
    (x y : String) :
    ∀ g : Graph, builtEdge g lines w = Except.ok g' →
      (g'.hasEdgeB x y = true ↔
        g.hasEdgeB x y = true ∨ ∃ parts ∈ lines, admitsEdgeB parts w x y = true) := by
  induction lines with
  | nil =>
    intro g hok
    injection hok with hg
    subst hg
    simp
  | cons l ls ih =>
    intro g hok
    unfold builtEdge at hok
    cases hline : builtEdgeLine g l w with
    | error e =>
      rw [hline] at hok
      exact Except.noConfusion hok
    | ok g1 =>
      rw [hline] at hok
      rw [ih g1 hok]
      rw [builtEdgeLine_hasEdgeB g g1 l w hline x y]
      simp only [List.mem_cons]
      constructor
      · rintro ((h1 | h1) | ⟨p, hp, ha⟩)
        · exact Or.inl h1
        · exact Or.inr ⟨l, Or.inl rfl, h1⟩
        · exact Or.inr ⟨p, Or.inr hp, ha⟩
      · rintro (h1 | ⟨p, (rfl | hp), ha⟩)
        · exact Or.inl (Or.inl h1)
        · exact Or.inl (Or.inr ha)
        · exact Or.inr ⟨p, hp, ha⟩

/-- Helper: node membership in the graph built by `builtEdge`: the initial
nodes plus the endpoints of admitted rows (inserted by `add_edge`). -/
theorem builtEdge_hasNodeB (lines : List Row) (w : Bool) (g' : Graph)
    (n : String) :
    ∀ g : Graph,
      (∀ u v, g.hasEdgeB u v = true → g.hasNodeB u = true ∧ g.hasNodeB v = true) →
      builtEdge g lines w = Except.ok g' →
      (g'.hasNodeB n = true ↔
        g.hasNodeB n = true ∨ ∃ parts ∈ lines, admitsTouchB parts w n = true) := by
  induction lines with
  | nil =>
    intro g _ hok
    injection hok with hg
    subst hg
    simp
  | cons l ls ih =>
    intro g hinv hok
    unfold builtEdge at hok
    cases hline : builtEdgeLine g l w with
    | error e =>
      rw [hline] at hok
      exact Except.noConfusion hok
    | ok g1 =>
      rw [hline] at hok
      rw [ih g1 (builtEdgeLine_inv g g1 l w hinv hline) hok]
      rw [builtEdgeLine_hasNodeB g g1 l w hinv hline n]
      simp only [List.mem_cons]
      constructor
      · rintro ((h1 | h1) | ⟨p, hp, ha⟩)
        · exact Or.inl h1
        · exact Or.inr ⟨l, Or.inl rfl, h1⟩
        · exact Or.inr ⟨p, Or.inr hp, ha⟩
      · rintro (h1 | ⟨p, (rfl | hp), ha⟩)
        · exact Or.inl (Or.inl h1)
        · exact Or.inl (Or.inr ha)
        · exact Or.inr ⟨p, hp, ha⟩

/-- Helper: `builtEdge` preserves distinctness of ordered edge pairs. -/
theorem builtEdge_nodup (lines : List Row) (w : Bool) (g' : Graph) :
    ∀ g : Graph, builtEdge g lines w = Except.ok g' →
      g.edgePairs.Nodup → g'.edgePairs.Nodup := by
  induction lines with
  | nil =>
    intro g hok hnd
    injection hok with hg
    subst hg
    exact hnd
  | cons l ls ih =>
    intro g hok hnd
    unfold builtEdge at hok
    cases hline : builtEdgeLine g l w with
    | error e =>
      rw [hline] at hok
      exact Except.noConfusion hok
    | ok g1 =>
      rw [hline] at hok
      exact ih g1 hok (builtEdgeLine_nodup g g1 l w hline hnd)

/-- Helper: outcome analysis of one `builtNode` iteration that did not
raise. -/
theorem builtNodeLine_cases (g g' : Graph) (parts : Row)
    (hok : builtNodeLine g parts = Except.ok g') :
    ∃ node active, parts.get? 0 = some node ∧ parts.get? 2 = some active ∧
      ((active = "1" ∧ g' = g.addNode node) ∨ (active ≠ "1" ∧ g' = g)) := by
  unfold builtNodeLine at hok
  rcases h0 : parts.get? 0 with _ | node <;>
    rcases h2 : parts.get? 2 with _ | active <;>
      rw [h0, h2] at hok <;>
        try exact Except.noConfusion hok
  refine ⟨node, active, rfl, rfl, ?_⟩
  dsimp only at hok
  by_cases ha : active = "1"
  · rw [if_pos (by simp [ha])] at hok
    injection hok with hg
    exact Or.inl ⟨ha, hg.symm⟩
  · rw [if_neg (by simp [ha])] at hok
    injection hok with hg
    exact Or.inr ⟨ha, hg.symm⟩

/-- Helper: node membership after one non-raising `builtNode` iteration. -/
theorem builtNodeLine_hasNodeB (g g' : Graph) (parts : Row)
    (hok : builtNodeLine g parts = Except.ok g') (n : String) :
    g'.hasNodeB n = true ↔
      g.hasNodeB n = true ∨ admitsConceptB parts n = true := by
  obtain ⟨node, active, h0, h2, hcase⟩ := builtNodeLine_cases g g' parts hok
  have hadmC : admitsConceptB parts n = ((node == n) && (active == "1")) := by
    unfold admitsConceptB
    rw [h0, h2]
    rfl
  rcases hcase with ⟨ha, rfl⟩ | ⟨ha, rfl⟩
  · rw [addNode_hasNodeB, hadmC]
    simp only [ha, Bool.and_true, beq_iff_eq, beq_self_eq_true]
    constructor
    · rintro (h1 | rfl)
      · exact Or.inl h1
      · exact Or.inr rfl
    · rintro (h1 | rfl)
      · exact Or.inl h1
      · exact Or.inr rfl
  · rw [hadmC]
    simp [ha]

/-- Helper: `builtNode` only adds nodes, never edges. -/
theorem builtNodeLine_edges (g g' : Graph) (parts : Row)
    (hok : builtNodeLine g parts = Except.ok g') : g'.edges = g.edges := by
  obtain ⟨node, active, _, _, hcase⟩ := builtNodeLine_cases g g' parts hok
  rcases hcase with ⟨_, rfl⟩ | ⟨_, rfl⟩
  · exact addNode_edges g node
  · rfl

/-- Helper: node membership in the graph built by `builtNode`: the initial
nodes plus the ids of the active concept rows. -/
theorem builtNode_hasNodeB (lines : List Row) (g' : Graph) (n : String) :
    ∀ g : Graph, builtNode g lines = Except.ok g' →
      (g'.hasNodeB n = true ↔
        g.hasNodeB n = true ∨ ∃ parts ∈ lines, admitsConceptB parts n = true) := by
  induction lines with
  | nil =>
    intro g hok
    injection hok with hg
    subst hg
    simp
  | cons l ls ih =>
    intro g hok
    unfold builtNode at hok
    cases hline : builtNodeLine g l with
    | error e =>
      rw [hline] at hok
      exact Except.noConfusion hok
    | ok g1 =>
      rw [hline] at hok
      rw [ih g1 hok]
      rw [builtNodeLine_hasNodeB g g1 l hline n]
      simp only [List.mem_cons]
      constructor
      · rintro ((h1 | h1) | ⟨p, hp, ha⟩)
        · exact Or.inl h1
        · exact Or.inr ⟨l, Or.inl rfl, h1⟩
        · exact Or.inr ⟨p, Or.inr hp, ha⟩
      · rintro (h1 | ⟨p, (rfl | hp), ha⟩)
        · exact Or.inl (Or.inl h1)
        · exact Or.inl (Or.inr ha)
        · exact Or.inr ⟨p, hp, ha⟩

/-- Helper: the edge list is unchanged across `builtNode`. -/
theorem builtNode_edges (lines : List Row) (g' : Graph) :
    ∀ g : Graph, builtNode g lines = Except.ok g' → g'.edges = g.edges := by
  induction lines with
  | nil =>
    intro g hok
    injection hok with hg
    subst hg
    rfl
  | cons l ls ih =>
    intro g hok
    unfold builtNode at hok
    cases hline : builtNodeLine g l with
    | error e =>
      rw [hline] at hok
      exact Except.noConfusion hok
    | ok g1 =>
      rw [hline] at hok
      exact (ih g1 hok).trans (builtNodeLine_edges g g1 l hline)

/-- C3: a relationship row is admitted as the directed edge field4 → field5
iff its active field is `"1"` and, when building the is-a graph, its type
field is `"116680003"` (any active type for the relation graph); and the
`has_edge` guard keeps the ordered edge pairs distinct, so a duplicate
ordered pair adds no second edge or label. -/
theorem C3_edge_admission (g g' : Graph) (lines : List Row) (w : Bool)
    (hok : builtEdge g lines w = Except.ok g') :
    (∀ u v, g'.hasEdgeB u v = true ↔
        (g.hasEdgeB u v = true ∨ ∃ parts ∈ lines, admitsEdgeB parts w u v = true)) ∧
      (g.edgePairs.Nodup → g'.edgePairs.Nodup) :=
  ⟨fun u v => builtEdge_hasEdgeB lines w g' u v g hok,
   builtEdge_nodup lines w g' g hok⟩

/-- A well-formed active subsumption relationship row 100 → 200. -/
def isaRow : Row :=
  ["3991004023", "20230430", "1", "900000000000207008", "100", "200", "0",
   "116680003", "900000000000011006", "900000000000451002"]

/-- A well-formed active attribute relationship row 300 → 400 (type is the
finding-site-like id 363698007, not subsumption). -/
def attrRow : Row :=
  ["3991004024", "20230430", "1", "900000000000207008", "300", "400", "0",
   "363698007", "900000000000011006", "900000000000451002"]

/-- The is-a graph built from `[isaRow, isaRow]` (the duplicate row is
collapsed). -/
def C3graph : Graph := ⟨["100", "200"], [("100", "200", "116680003")]⟩

/-- Witness for C3 on a duplicated subsumption row. -/
theorem C3_edge_admission_witness :
    (C3graph.hasEdgeB "100" "200" = true ↔
        (Graph.empty.hasEdgeB "100" "200" = true ∨
          ∃ parts ∈ [isaRow, isaRow], admitsEdgeB parts true "100" "200" = true)) ∧
      (Graph.empty.edgePairs.Nodup → C3graph.edgePairs.Nodup) :=
  ⟨(C3_edge_admission Graph.empty C3graph [isaRow, isaRow] true rfl).1 "100" "200",
   (C3_edge_admission Graph.empty C3graph [isaRow, isaRow] true rfl).2⟩

/-- Helper: a row admitted for the is-a build is admitted for the
full-relation build. -/
theorem admitsB_mono (parts : Row) (h : admitsB parts true = true) :
    admitsB parts false = true := by
  unfold admitsB at h ⊢
  rcases h2 : parts.get? 2 with _ | active
  · rw [h2] at h
    exact h
  rcases h7 : parts.get? 7 with _ | rtype
  · rw [h2, h7] at h
    exact h
  rw [h2, h7] at h
  dsimp only at h
  rw [if_pos rfl] at h
  dsimp only
  rw [if_neg (by simp)]
  rw [Bool.and_eq_true] at h
  exact h.1

/-- Helper: an is-a admitted edge is a relation-graph admitted edge. -/
theorem admitsEdgeB_mono (parts : Row) (u v : String)
    (h : admitsEdgeB parts true u v = true) : admitsEdgeB parts false u v = true := by
  unfold admitsEdgeB at h ⊢
  rw [Bool.and_eq_true] at h ⊢
  exact ⟨h.1, admitsB_mono parts h.2⟩

/-- C8: on the same input rows, every edge of the is-a graph
(`without_attribute_relation = True`) is an edge of the relation graph
(`without_attribute_relation = False`). -/
theorem C8_isa_edges_subset_rel (lines0 lines1 : List Row) (g1 g2 : Graph)
    (h1 : createGraph lines0 lines1 true = Except.ok g1)
    (h2 : createGraph lines0 lines1 false = Except.ok g2)
    (u v : String) (he : g1.hasEdgeB u v = true) :
    g2.hasEdgeB u v = true := by
  unfold createGraph at h1 h2
  cases hn : builtNode Graph.empty lines0 with
  | error e =>
    rw [hn] at h1
    exact Except.noConfusion h1
  | ok g0 =>
    rw [hn] at h1 h2
    have hedge0 : ∀ x y, g0.hasEdgeB x y = false := by
      intro x y
      unfold Graph.hasEdgeB
      rw [builtNode_edges lines0 g0 Graph.empty hn]
      rfl
    rw [builtEdge_hasEdgeB lines1 true g1 u v g0 h1] at he
    rcases he with hbad | ⟨p, hp, ha⟩
    · rw [hedge0] at hbad
      cases hbad
    · exact (builtEdge_hasEdgeB lines1 false g2 u v g0 h2).mpr
        (Or.inr ⟨p, hp, admitsEdgeB_mono p u v ha⟩)

/-- The is-a graph built from `[isaRow, attrRow]`. -/
def C8isaGraph : Graph := ⟨["100", "200"], [("100", "200", "116680003")]⟩

/-- The relation graph built from `[isaRow, attrRow]`. -/
def C8relGraph : Graph :=
  ⟨["100", "200", "300", "400"],
   [("100", "200", "116680003"), ("300", "400", "363698007")]⟩

/-- Witness for C8: the subsumption edge of the is-a graph is present in
the relation graph built from the same rows. -/
theorem C8_isa_edges_subset_rel_witness : C8relGraph.hasEdgeB "100" "200" = true :=
  C8_isa_edges_subset_rel [] [isaRow, attrRow] C8isaGraph C8relGraph rfl rfl
    "100" "200" (by decide)

/-- A concept row declaring id 9999 inactive. -/
def C1conceptRows : List Row := [["9999", "20230430", "0"]]

/-- An active subsumption relationship row 9999 → 138875005. -/
def C1relRows : List Row :=
  [["505", "20230430", "1", "900000000000207008", "9999", "138875005", "0",
    "116680003", "900000000000011006", "900000000000451002"]]

/-- The is-a graph built from `C1conceptRows` and `C1relRows`. -/
def C1graph : Graph := ⟨["9999", "138875005"], [("9999", "138875005", "116680003")]⟩

/-- Counterexample to C1: concept 9999 has only an inactive concept row,
yet it appears as a node of the built graph, because networkx `add_edge`
inserts the endpoints of the admitted relationship row. -/
theorem C1_counterexample :
    createGraph C1conceptRows C1relRows true = Except.ok C1graph ∧
      C1graph.hasNodeB "9999" = true ∧
      ¬ ∃ parts ∈ C1conceptRows, admitsConceptB parts "9999" = true :=
  ⟨rfl, rfl, by decide⟩

/-- C1 (amended): a concept id is a node of the built graph iff some
concept row has that id with active flag `"1"`, **or** some admitted
relationship row mentions it as source or destination (`add_edge` inserts
missing endpoints). -/
theorem C1_node_admission (lines0 lines1 : List Row) (w : Bool) (g : Graph)
    (hok : createGraph lines0 lines1 w = Except.ok g) (n : String) :
    g.hasNodeB n = true ↔
      ((∃ parts ∈ lines0, admitsConceptB parts n = true) ∨
        ∃ parts ∈ lines1, admitsTouchB parts w n = true) := by
  unfold createGraph at hok
  cases hn : builtNode Graph.empty lines0 with
  | error e =>
    rw [hn] at hok
    exact Except.noConfusion hok
  | ok g0 =>
    rw [hn] at hok
    have hinv0 : ∀ u v, g0.hasEdgeB u v = true →
        g0.hasNodeB u = true ∧ g0.hasNodeB v = true := by
      intro u v he
      unfold Graph.hasEdgeB at he
      rw [builtNode_edges lines0 g0 Graph.empty hn] at he
      exact Bool.noConfusion he
    rw [builtEdge_hasNodeB lines1 w g n g0 hinv0 hok]
    rw [builtNode_hasNodeB lines0 g0 n Graph.empty hn]
    have hemp : Graph.empty.hasNodeB n = false := rfl
    rw [hemp]
    simp

/-- Witness for C1 (amended) at concept 9999 of the counterexample
input. -/
theorem C1_node_admission_witness :
    C1graph.hasNodeB "9999" = true ↔
      ((∃ parts ∈ C1conceptRows, admitsConceptB parts "9999" = true) ∨
        ∃ parts ∈ C1relRows, admitsTouchB parts true "9999" = true) :=
  C1_node_admission C1conceptRows C1relRows true C1graph rfl "9999"

/-- An active subsumption relationship row 777 → 888. -/
def cycRowAB : Row :=
  ["601", "20230430", "1", "900000000000207008", "777", "888", "0",
   "116680003", "900000000000011006", "900000000000451002"]

/-- An active subsumption relationship row 888 → 777. -/
def cycRowBA : Row :=
  ["602", "20230430", "1", "900000000000207008", "888", "777", "0",
   "116680003", "900000000000011006", "900000000000451002"]

/-- The is-a graph built from the two mutually inverse subsumption rows. -/
def C9graph : Graph :=
  ⟨["777", "888"], [("777", "888", "116680003"), ("888", "777", "116680003")]⟩

/-- Counterexample to C9: the builder performs no acyclicity check, so two
mutually inverse active subsumption rows produce an is-a graph with the
directed cycle 777 → 888 → 777. -/
theorem C9_counterexample :
    createGraph [] [cycRowAB, cycRowBA] true = Except.ok C9graph ∧
      ¬ C9graph.Acyclic :=
  ⟨rfl, fun h => h ["777", "888", "777"] (by decide) (by decide) (by decide)⟩

/-- Helper: two booleans agreeing as propositions are equal. -/
theorem bool_eq_of_iff {a b : Bool} (h : a = true ↔ b = true) : a = b := by
  cases a <;> cases b <;> simp_all

/-- C9 (amended): the builder admits every active subsumption row without
any acyclicity check; the built is-a graph is acyclic exactly when the
relation formed by the admitted rows has no directed cycle (so acyclicity
is a property of the input data, not an invariant the code enforces). -/
theorem C9_acyclic_iff_rows (lines0 lines1 : List Row) (g : Graph)
    (hok : createGraph lines0 lines1 true = Except.ok g) :
    g.Acyclic ↔ RowsAcyclic lines1 := by
  unfold createGraph at hok
  cases hn : builtNode Graph.empty lines0 with
  | error e =>
    rw [hn] at hok
    exact Except.noConfusion hok
  | ok g0 =>
    rw [hn] at hok
    have hedge : ∀ u v, g.hasEdgeB u v =
        lines1.any (fun parts => admitsEdgeB parts true u v) := by
      intro u v
      have h1 := builtEdge_hasEdgeB lines1 true g u v g0 hok
      have h0 : g0.hasEdgeB u v = false := by
        unfold Graph.hasEdgeB
        rw [builtNode_edges lines0 g0 Graph.empty hn]
        rfl
      rw [h0] at h1
      apply bool_eq_of_iff
      rw [h1, List.any_eq_true]
      simp
    have hpath : ∀ l, g.pathB l = rowPathB lines1 l := by
      intro l
      induction l with
      | nil => rfl
      | cons a t ih =>
        cases t with
        | nil => rfl
        | cons b rest =>
          show (g.hasEdgeB a b && g.pathB (b :: rest)) =
            (lines1.any (fun parts => admitsEdgeB parts true a b) &&
              rowPathB lines1 (b :: rest))
          rw [hedge a b, ih]
    constructor
    · intro h l h1 h2 h3
      exact h l h1 h2 (by rw [hpath]; exact h3)
    · intro h l h1 h2 h3
      exact h l h1 h2 (by rw [← hpath]; exact h3)

/-- The is-a graph built from the single row `cycRowAB`. -/
def C9singleGraph : Graph := ⟨["777", "888"], [("777", "888", "116680003")]⟩

/-- Witness for C9 (amended) on a one-row input. -/
theorem C9_acyclic_iff_rows_witness :
    C9singleGraph.Acyclic ↔ RowsAcyclic [cycRowAB] :=
  C9_acyclic_iff_rows [] [cycRowAB] C9singleGraph rfl

/-- Both symmetric cells of a pairwise matrix hold the sentinel 50. -/
def cells50 (c1 c2 : String) (m : String → String → Nat) : Prop :=
  m c1 c2 = 50 ∧ m c2 c1 = 50

/-- Helper: a `loc` update read back at the written cell. -/
theorem matrixUpdate_self {α : Type} (m : String → String → α) (r c : String)
    (v : α) : matrixUpdate m r c v r c = v := by
  unfold matrixUpdate
  rw [if_pos ⟨rfl, rfl⟩]

/-- Helper: a `loc` update read back at any other cell. -/
theorem matrixUpdate_ne {α : Type} (m : String → String → α) (r c : String)
    (v : α) (x y : String) (h : ¬(x = r ∧ y = c)) :
    matrixUpdate m r c v x y = m x y := by
  unfold matrixUpdate
  rw [if_neg h]

/-- Helper: a pair with `i > j` is skipped by the pairwise loop. -/
theorem pairStep_not_le (resolver : Resolver) (graph : Graph)
    (m : String → String → Nat) (ic jc : Nat × String) (h : ¬ ic.1 ≤ jc.1) :
    pairStep resolver graph m ic jc = m := by
  unfold pairStep
  rw [if_neg h]

/-- Helper: the pairwise loop body writes only the two symmetric cells of
its pair. -/
theorem pairStep_apply_ne (resolver : Resolver) (graph : Graph)
    (m : String → String → Nat) (ic jc : Nat × String) (x y : String)
    (h1 : ¬(x = ic.2 ∧ y = jc.2)) (h2 : ¬(x = jc.2 ∧ y = ic.2)) :
    pairStep resolver graph m ic jc x y = m x y := by
  unfold pairStep
  split
  · split
    · exact matrixUpdate_ne m ic.2 jc.2 0 x y h1
    · rcases shortest_path_distance resolver graph ic.2 jc.2 with _ | d
      · dsimp only
        rw [matrixUpdate_ne _ _ _ _ _ _ h2]
        exact matrixUpdate_ne _ _ _ _ _ _ h1
      · dsimp only
        rw [matrixUpdate_ne _ _ _ _ _ _ h2]
        exact matrixUpdate_ne _ _ _ _ _ _ h1
  · rfl

/-- Helper: the matrix-builder loop body writes only its own cell. -/
theorem buildStep_apply_ne (resolver : Resolver) (graph : Graph)
    (m : String → String → DVal) (c1 c2 x y : String)
    (h : ¬(x = c1 ∧ y = c2)) :
    buildStep resolver graph m c1 c2 x y = m x y := by
  unfold buildStep
  rcases resolver graph c1 c2 with _ | d
  · exact matrixUpdate_ne _ _ _ _ _ _ h
  · exact matrixUpdate_ne _ _ _ _ _ _ h

/-- Helper: when the resolver raises, the matrix-builder loop body writes
`float('inf')`. -/
theorem buildStep_inf (resolver : Resolver) (graph : Graph)
    (m : String → String → DVal) (c1 c2 : String)
    (h : resolver graph c1 c2 = none) :
    buildStep resolver graph m c1 c2 c1 c2 = DVal.inf := by
  unfold buildStep
  rw [h]
  exact matrixUpdate_self _ _ _ _

/-- Helper: `enumerate` membership in terms of positional lookup. -/
theorem mem_enum_get? {α : Type _} (l : List α) (i : Nat) (x : α) :
    (i, x) ∈ l.enum ↔ l.get? i = some x := by
  rw [List.mk_mem_enum_iff_getElem?]
  simp

/-- Helper: the enumerated list has no duplicate entries. -/
theorem enum_nodup {α : Type _} (l : List α) : l.enum.Nodup := by
  have h : (l.enum.map Prod.fst).Nodup := by
    rw [List.enum_map_fst]
    exact List.nodup_range _
  exact h.of_map

/-- Helper: in a duplicate-free list, a value determines its index. -/
theorem enum_value_unique {α : Type _} (l : List α) (hnd : l.Nodup)
    (i j : Nat) (x : α) (hi : (i, x) ∈ l.enum) (hj : (j, x) ∈ l.enum) :
    i = j := by
  rw [mem_enum_get?] at hi hj
  have hlen : i < l.length := by
    rcases List.get?_eq_some.mp hi with ⟨h, _⟩
    exact h
  rw [List.get?_eq_getElem?] at hi hj
  exact List.getElem?_inj hlen hnd (hi.trans hj.symm)

/-- Helper: the inner pairwise loop for an outer entry other than `(i, c1)`
leaves the two cells of an already-written unreachable pair untouched. -/
theorem inner_fold_preserve (resolver : Resolver) (graph : Graph)
    (E : List (Nat × String)) (i j : Nat) (c1 c2 : String)
    (hij : i < j) (hne : c1 ≠ c2)
    (hEc1 : ∀ p ∈ E, p.2 = c1 → p.1 = i)
    (k : Nat) (a : String) (hac1 : a ≠ c1) (hac2 : a = c2 → k = j)
    (m : String → String → Nat) (hP : cells50 c1 c2 m) :
    cells50 c1 c2
      (E.foldl (fun m jc2 => pairStep resolver graph m (k, a) jc2) m) := by
  refine foldl_invariant _ (cells50 c1 c2) E m ?_ hP
  intro mm p hp hPm
  by_cases haceq : a = c2
  · by_cases hbc1 : p.2 = c1
    · rw [pairStep_not_le resolver graph mm (k, a) p (by
        have hk := hac2 haceq
        have hl := hEc1 p hp hbc1
        dsimp only
        omega)]
      exact hPm
    · constructor
      · rw [pairStep_apply_ne resolver graph mm (k, a) p c1 c2
          (fun hc => hne (hc.1.trans haceq)) (fun hc => hbc1 hc.1.symm)]
        exact hPm.1
      · rw [pairStep_apply_ne resolver graph mm (k, a) p c2 c1
          (fun hc => hbc1 hc.2.symm) (fun hc => hne (hc.2.trans haceq))]
        exact hPm.2
  · constructor
    · rw [pairStep_apply_ne resolver graph mm (k, a) p c1 c2
        (fun hc => hac1 hc.1.symm) (fun hc => haceq hc.2.symm)]
      exact hPm.1
    · rw [pairStep_apply_ne resolver graph mm (k, a) p c2 c1
        (fun hc => haceq hc.1.symm) (fun hc => hac1 hc.2.symm)]
      exact hPm.2

/-- Helper: the inner pairwise loop for the outer entry `(i, c1)` writes 50
into both cells when it reaches `(j, c2)` and never overwrites them
afterwards. -/
theorem inner_fold_establish (resolver : Resolver) (graph : Graph)
    (i j : Nat) (c1 c2 : String) (hij : i < j) (hne : c1 ≠ c2)
    (hspd : shortest_path_distance resolver graph c1 c2 = none)
    (s2 t2 : List (Nat × String)) (ht2 : ∀ p ∈ t2, p.2 ≠ c2)
    (m : String → String → Nat) :
    cells50 c1 c2
      ((s2 ++ (j, c2) :: t2).foldl
        (fun m jc2 => pairStep resolver graph m (i, c1) jc2) m) := by
  rw [List.foldl_append, List.foldl_cons]
  refine foldl_invariant _ (cells50 c1 c2) t2 _ ?_ ?_
  · intro mm p hp hPm
    constructor
    · rw [pairStep_apply_ne resolver graph mm (i, c1) p c1 c2
        (fun hc => ht2 p hp hc.2.symm) (fun hc => hne hc.2.symm)]
      exact hPm.1
    · rw [pairStep_apply_ne resolver graph mm (i, c1) p c2 c1
        (fun hc => hne hc.1.symm) (fun hc => ht2 p hp hc.1.symm)]
      exact hPm.2
  · unfold pairStep
    dsimp only
    rw [if_pos (Nat.le_of_lt hij), if_neg (Nat.ne_of_lt hij), hspd]
    dsimp only
    refine ⟨?_, ?_⟩
    · rw [matrixUpdate_ne _ _ _ _ _ _ (fun hc => hne hc.1)]
      exact matrixUpdate_self _ _ _ _
    · exact matrixUpdate_self _ _ _ _

/-- Helper: the full double pairwise loop over an outer split
`s ++ (i, c1) :: t` leaves 50 in both cells of the unreachable pair. -/
theorem outer_fold_50 (resolver : Resolver) (graph : Graph)
    (E : List (Nat × String)) (i j : Nat) (c1 c2 : String)
    (hij : i < j) (hne : c1 ≠ c2)
    (hspd : shortest_path_distance resolver graph c1 c2 = none)
    (hEnd : E.Nodup)
    (hEc1 : ∀ p ∈ E, p.2 = c1 → p.1 = i)
    (hEc2 : ∀ p ∈ E, p.2 = c2 → p.1 = j)
    (hmemj : (j, c2) ∈ E)
    (s t : List (Nat × String)) (hmid : (i, c1) ∉ t)
    (ht : ∀ p ∈ t, p ∈ E) (init : String → String → Nat) :
    cells50 c1 c2
      ((s ++ (i, c1) :: t).foldl
        (fun m ic1 => E.foldl (fun m jc2 => pairStep resolver graph m ic1 jc2) m)
        init) := by
  rw [List.foldl_append, List.foldl_cons]
  refine foldl_invariant _ (cells50 c1 c2) t _ ?_ ?_
  · intro m p hp hP
    have hpE := ht p hp
    have hac1 : p.2 ≠ c1 := by
      intro hpc
      have hpi : p.1 = i := hEc1 p hpE hpc
      have hpeq : p = (i, c1) := Prod.ext hpi hpc
      rw [hpeq] at hp
      exact hmid hp
    exact inner_fold_preserve resolver graph E i j c1 c2 hij hne hEc1 p.1 p.2
      hac1 (fun h => hEc2 p hpE h) m hP
  · obtain ⟨s2, t2, hsplit2⟩ := List.append_of_mem hmemj
    have ht2 : ∀ p ∈ t2, p.2 ≠ c2 := by
      intro p hp hpc
      have hpE : p ∈ E := by
        rw [hsplit2]
        exact List.mem_append.mpr (Or.inr (List.mem_cons_of_mem _ hp))
      have hpj : p.1 = j := hEc2 p hpE hpc
      have hpeq : p = (j, c2) := Prod.ext hpj hpc
      rw [hpeq] at hp
      have hnd2 := List.nodup_middle.mp (hsplit2 ▸ hEnd)
      rw [List.nodup_cons] at hnd2
      exact hnd2.1 (List.mem_append.mpr (Or.inr hp))
    rw [hsplit2]
    exact inner_fold_establish resolver graph i j c1 c2 hij hne hspd s2 t2 ht2 _

/-- Helper: positional form of the pairwise sentinel property. -/
theorem pairwise_cells_50 (resolver : Resolver) (graph : Graph)
    (concepts : List String) (i j : Nat) (c1 c2 : String)
    (hnd : concepts.Nodup) (hij : i < j)
    (hi : concepts.get? i = some c1) (hj : concepts.get? j = some c2)
    (hspd : shortest_path_distance resolver graph c1 c2 = none) :
    cells50 c1 c2 (calculate_pairwise_distances_from_graph resolver concepts graph) := by
  have hne : c1 ≠ c2 := by
    intro e
    rw [e, shortest_path_distance_refl] at hspd
    exact Option.noConfusion hspd
  have hmemi : (i, c1) ∈ concepts.enum := (mem_enum_get? concepts i c1).mpr hi
  have hmemj : (j, c2) ∈ concepts.enum := (mem_enum_get? concepts j c2).mpr hj
  have hEc1 : ∀ p ∈ concepts.enum, p.2 = c1 → p.1 = i := by
    intro p hp hpc
    have hpeq : p = (p.1, c1) := Prod.ext rfl hpc
    exact enum_value_unique concepts hnd p.1 i c1 (hpeq ▸ hp) hmemi
  have hEc2 : ∀ p ∈ concepts.enum, p.2 = c2 → p.1 = j := by
    intro p hp hpc
    have hpeq : p = (p.1, c2) := Prod.ext rfl hpc
    exact enum_value_unique concepts hnd p.1 j c2 (hpeq ▸ hp) hmemj
  obtain ⟨s, t, hsplit⟩ := List.append_of_mem hmemi
  have hmid : (i, c1) ∉ t := by
    have hnd2 := List.nodup_middle.mp (hsplit ▸ enum_nodup concepts)
    rw [List.nodup_cons] at hnd2
    exact fun hm => hnd2.1 (List.mem_append.mpr (Or.inr hm))
  have ht : ∀ p ∈ t, p ∈ concepts.enum := by
    intro p hp
    rw [hsplit]
    exact List.mem_append.mpr (Or.inr (List.mem_cons_of_mem _ hp))
  unfold calculate_pairwise_distances_from_graph
  have H := outer_fold_50 resolver graph concepts.enum i j c1 c2 hij hne hspd
    (enum_nodup concepts) hEc1 hEc2 hmemj s t hmid ht (fun _ _ => 0)
  rw [← hsplit] at H
  exact H

/-- Helper: the matrix-builder double loop over an outer split writes
`float('inf')` into the failing cell and never overwrites it. -/
theorem build_outer_inf (resolver : Resolver) (graph : Graph)
    (E : List String) (c1 c2 : String)
    (hEnd : E.Nodup) (h2 : c2 ∈ E)
    (hres : resolver graph c1 c2 = none)
    (s t : List String) (hc1t : c1 ∉ t) (init : String → String → DVal) :
    ((s ++ c1 :: t).foldl
      (fun m a => E.foldl (fun m b => buildStep resolver graph m a b) m)
      init) c1 c2 = DVal.inf := by
  rw [List.foldl_append, List.foldl_cons]
  refine foldl_invariant _ (fun (m : String → String → DVal) => m c1 c2 = DVal.inf) t _ ?_ ?_
  · intro m a ha hP
    have hac1 : a ≠ c1 := fun e => hc1t (e ▸ ha)
    refine foldl_invariant _ (fun (m : String → String → DVal) => m c1 c2 = DVal.inf) E _ ?_ hP
    intro mm b hb hPm
    rw [buildStep_apply_ne resolver graph mm a b c1 c2 (fun hc => hac1 hc.1.symm)]
    exact hPm
  · obtain ⟨s2, t2, hsplit2⟩ := List.append_of_mem h2
    have hc2t2 : c2 ∉ t2 := by
      have hnd2 := List.nodup_middle.mp (hsplit2 ▸ hEnd)
      rw [List.nodup_cons] at hnd2
      exact fun hm => hnd2.1 (List.mem_append.mpr (Or.inr hm))
    rw [hsplit2, List.foldl_append, List.foldl_cons]
    refine foldl_invariant _ (fun (m : String → String → DVal) => m c1 c2 = DVal.inf) t2 _ ?_ ?_
    · intro mm b hb hPm
      have hbc2 : b ≠ c2 := fun e => hc2t2 (e ▸ hb)
      rw [buildStep_apply_ne resolver graph mm c1 b c1 c2 (fun hc => hbc2 hc.2.symm)]
      exact hPm
    · exact buildStep_inf resolver graph _ c1 c2 hres

/-- Helper: an unresolvable cell of `build_distance_matrix` holds
`float('inf')`. -/
theorem build_cell_inf (resolver : Resolver) (graph : Graph)
    (concepts : List String) (c1 c2 : String)
    (hnd : concepts.Nodup) (h1 : c1 ∈ concepts) (h2 : c2 ∈ concepts)
    (hres : resolver graph c1 c2 = none) :
    build_distance_matrix resolver concepts graph c1 c2 = DVal.inf := by
  obtain ⟨s, t, hsplit⟩ := List.append_of_mem h1
  have hc1t : c1 ∉ t := by
    have hnd2 := List.nodup_middle.mp (hsplit ▸ hnd)
    rw [List.nodup_cons] at hnd2
    exact fun hm => hnd2.1 (List.mem_append.mpr (Or.inr hm))
  unfold build_distance_matrix
  have H := build_outer_inf resolver graph concepts c1 c2 hnd h2 hres s t hc1t
    (fun _ _ => DVal.nan)
  rw [← hsplit] at H
  exact H

/-- Counterexample to C4: `build_distance_matrix` stores `float('inf')`
for a pair whose distance computation raises, not the sentinel 50 claimed
for both batch builders. -/
theorem C4_counterexample :
    build_distance_matrix failingResolver ["100", "200"] Graph.empty
        "100" "200" = DVal.inf ∧
      DVal.inf ≠ DVal.num 50 :=
  ⟨rfl, by decide⟩

/-- C4 (amended): for a distinct pair with no computable distance,
`calculate_pairwise_distances_from_graph` stores the sentinel 50 in both
symmetric cells, while `build_distance_matrix` catches the per-pair
exception and stores `float('inf')` in the failing cell; neither lets an
exception escape (both embeddings are total), and both sentinels are
distinguished from distance 0. -/
theorem C4_unreachable_sentinels (resolver : Resolver) (graph : Graph)
    (concepts : List String) (c1 c2 : String)
    (hnd : concepts.Nodup) (h1 : c1 ∈ concepts) (h2 : c2 ∈ concepts) :
    (c1 ≠ c2 → shortest_path_distance resolver graph c1 c2 = none →
      calculate_pairwise_distances_from_graph resolver concepts graph c1 c2 = 50 ∧
        calculate_pairwise_distances_from_graph resolver concepts graph c2 c1 = 50) ∧
      (resolver graph c1 c2 = none →
        build_distance_matrix resolver concepts graph c1 c2 = DVal.inf) ∧
      (50 : Nat) ≠ 0 ∧ DVal.inf ≠ DVal.num 0 := by
  refine ⟨?_, ?_, by decide, by decide⟩
  · intro hne hspd
    obtain ⟨i, hi⟩ := List.mem_iff_get?.mp h1
    obtain ⟨j, hj⟩ := List.mem_iff_get?.mp h2
    have hij_ne : i ≠ j := by
      intro e
      rw [e, hj] at hi
      exact hne (Option.some_inj.mp hi).symm
    rcases Nat.lt_or_ge i j with hlt | hge
    · exact pairwise_cells_50 resolver graph concepts i j c1 c2 hnd hlt hi hj hspd
    · have hlt : j < i := Nat.lt_of_le_of_ne hge (fun e => hij_ne e.symm)
      have hspd2 : shortest_path_distance resolver graph c2 c1 = none := by
        rw [shortest_path_distance_comm]
        exact hspd
      have H := pairwise_cells_50 resolver graph concepts j i c2 c1 hnd hlt hj hi hspd2
      exact ⟨H.2, H.1⟩
  · intro hres
    exact build_cell_inf resolver graph concepts c1 c2 hnd h1 h2 hres

/-- Witness for C4 (amended) on the two-concept list with the
always-failing resolver. -/
theorem C4_unreachable_sentinels_witness :
    (calculate_pairwise_distances_from_graph failingResolver ["100", "200"]
        Graph.empty "100" "200" = 50 ∧
      calculate_pairwise_distances_from_graph failingResolver ["100", "200"]
        Graph.empty "200" "100" = 50) ∧
      build_distance_matrix failingResolver ["100", "200"] Graph.empty
        "100" "200" = DVal.inf := by
  have H := C4_unreachable_sentinels failingResolver Graph.empty ["100", "200"]
    "100" "200" (by decide) (by decide) (by decide)
  exact ⟨H.1 (by decide) rfl, H.2.1 rfl⟩

end SnomedSim
